import Mathlib

/-!
Shallow embedding of the segundo-sol-curate taste-profile core:
the localStorage-backed exposure state (src/app/utils/tasteProfileStorage.js)
and the stack-build route (src/app/api/taste-profile/create-stack/route.js).

LocalStorage is modelled explicitly: each storage operation takes the stored
value and returns the new stored value.  External HTTP calls are modelled as
oracles passed in an environment record; an oracle answering none stands for
a failed request that the source catches and turns into an empty contribution.
-/

/-- One entry of the sources.tracks array: an artist/title pair supplied by
the user as a track seed. -/
structure SourceTrack where
  artist : String
  title : String
deriving DecidableEq

/-- The sources object recorded on a stack: track seeds plus genre names. -/
structure StackSources where
  tracks : List SourceTrack
  genres : List String
deriving DecidableEq

/-- Tag describing which seed produced an episode, mirroring the source
objects built in fetchEpisodesForTrack and fetchEpisodesForGenre. -/
inductive Source where
  | track (artist title : String)
  | genre (genreId : String)
deriving DecidableEq

/-- Spotify search result kept on an enriched track. -/
structure SpotifyData where
  id : String
  uri : String
  url : String
  name : String
  artist : String
deriving DecidableEq

/-- A track as stored inside a stack: the collected track fields plus the
optional spotify enrichment. -/
structure EnrichedTrack where
  uid : String
  artist : String
  title : String
  episodePath : String
  episodeTitle : String
  airDate : Nat
  source : Source
  spotify : Option SpotifyData
deriving DecidableEq

/-- An episode produced by the per-seed fetch helpers: path, title, air date
and the seed that surfaced it. -/
structure Episode where
  path : String
  title : String
  airDate : Nat
  source : Source
deriving DecidableEq

/-- A stored stack, as saved by saveStackToHistory and read by deleteStack. -/
structure Stack where
  id : String
  createdAt : String
  name : String
  sources : StackSources
  tracks : List EnrichedTrack
  episodesUsed : List Episode
  summary : String
deriving DecidableEq

/-- The three localStorage keys of tasteProfileStorage.js, as one record. -/
structure ExposureState where
  seenEpisodes : List String
  referencedTracks : List String
  stackHistory : List Stack
deriving DecidableEq

/-- markEpisodeAsSeen: append the path unless it is already present
(tasteProfileStorage.js lines 24-30). -/
def markEpisodeAsSeen (episodePath : String) (seen : List String) : List String :=
  if seen.contains episodePath then seen else seen ++ [episodePath]

/-- generateStackName (tasteProfileStorage.js lines 103-157), mirroring the
length tests and index accesses of the source. -/
def generateStackName (sources : StackSources) : String :=
  let artistNames := (sources.tracks.filter (fun t => t.artist != "")).map (fun t => t.artist)
  let genreNames := sources.genres
  if 0 < artistNames.length ∧ 0 < genreNames.length then
    let firstArtist := artistNames.getD 0 ""
    let firstGenre := genreNames.getD 0 ""
    if artistNames.length = 1 ∧ genreNames.length = 1 then
      firstArtist ++ " + " ++ firstGenre
    else if 1 < artistNames.length ∧ genreNames.length = 1 then
      firstArtist ++ " & More + " ++ firstGenre
    else if artistNames.length = 1 ∧ 1 < genreNames.length then
      firstArtist ++ " + " ++ firstGenre ++ " Mix"
    else
      firstArtist ++ " + " ++ firstGenre ++ " & More"
  else if 0 < artistNames.length then
    if artistNames.length = 1 then
      artistNames.getD 0 "" ++ " Mix"
    else if artistNames.length = 2 then
      artistNames.getD 0 "" ++ " + " ++ artistNames.getD 1 ""
    else
      artistNames.getD 0 "" ++ " & " ++ toString (artistNames.length - 1) ++ " More"
  else if 0 < genreNames.length then
    if genreNames.length = 1 then
      genreNames.getD 0 "" ++ " Stack"
    else if genreNames.length = 2 then
      genreNames.getD 0 "" ++ " + " ++ genreNames.getD 1 ""
    else
      genreNames.getD 0 "" ++ " Mix"
  else
    "Music Stack"

/-- The naming heuristic as the specification states it, by case analysis on
the two name lists (spec section 4.4). -/
def specStackName : List String → List String → String
  | [], [] => "Music Stack"
  | a :: as, g :: gs =>
    match as, gs with
    | [], [] => a ++ " + " ++ g
    | _ :: _, [] => a ++ " & More + " ++ g
    | [], _ :: _ => a ++ " + " ++ g ++ " Mix"
    | _ :: _, _ :: _ => a ++ " + " ++ g ++ " & More"
  | a :: as, [] =>
    match as with
    | [] => a ++ " Mix"
    | [b] => a ++ " + " ++ b
    | _ => a ++ " & " ++ toString as.length ++ " More"
  | [], g :: gs =>
    match gs with
    | [] => g ++ " Stack"
    | [h] => g ++ " + " ++ h
    | _ => g ++ " Mix"

/-- saveStackToHistory: unshift the new stack, keep the first 50
(tasteProfileStorage.js lines 170-178). -/
def saveStackToHistory (stack : Stack) (history : List Stack) : List Stack :=
  (stack :: history).take 50

/-- deleteStack (tasteProfileStorage.js lines 204-246): if the stack is
found, recompute referencedTracks by mark-and-sweep over the remaining
stacks; in both cases store the history with the target filtered out. -/
def deleteStack (stackId : String) (st : ExposureState) : ExposureState :=
  let history := st.stackHistory
  match history.find? (fun s => s.id == stackId) with
  | some stackToDelete =>
    let deletedTrackUids := stackToDelete.tracks.map (fun t => t.uid)
    let remainingStacks := history.filter (fun s => s.id != stackId)
    let remainingTrackUids := remainingStacks.flatMap (fun s => s.tracks.map (fun t => t.uid))
    let updatedReferenced := st.referencedTracks.filter
      (fun uid => !(deletedTrackUids.contains uid) || remainingTrackUids.contains uid)
    { st with
        referencedTracks := updatedReferenced
        stackHistory := history.filter (fun s => s.id != stackId) }
  | none =>
    { st with stackHistory := history.filter (fun s => s.id != stackId) }

/-- TrackKeys of the stack targeted for deletion, as the spec describes them
(empty when no stack has the id). -/
def deletedKeys (st : ExposureState) (stackId : String) : List String :=
  match st.stackHistory.find? (fun s => s.id == stackId) with
  | some s => s.tracks.map (fun t => t.uid)
  | none => []

/-- Union of TrackKeys across every other stack still in the history, as the
spec describes it. -/
def remainingKeys (st : ExposureState) (stackId : String) : List String :=
  (st.stackHistory.filter (fun s => s.id != stackId)).flatMap
    (fun s => s.tracks.map (fun t => t.uid))

/-! Embedding of the create-stack route
(src/app/api/taste-profile/create-stack/route.js). -/

/-- One result row of the NTS search responses consumed by the two episode
fetch helpers: the article path, the title and the local date (modelled as a
numeric timestamp). -/
structure SearchResult where
  path : String
  title : String
  local_date : Nat
deriving DecidableEq

/-- Insert one search result into a list that is already sorted by date
descending, stopping before the first strictly newer element.  This is the
stable-sort semantics of the source comparator dateB minus dateA. -/
def insertByDateDesc (x : SearchResult) : List SearchResult → List SearchResult
  | [] => [x]
  | y :: ys =>
    if y.local_date ≤ x.local_date then x :: y :: ys else y :: insertByDateDesc x ys

/-- Stable sort by local_date descending, the model of the in-place
results.sort call in fetchEpisodesForTrack. -/
def sortByDateDesc : List SearchResult → List SearchResult
  | [] => []
  | x :: xs => insertByDateDesc x (sortByDateDesc xs)

/-- fetchEpisodesForTrack (route.js lines 83-114) applied to the search
response: sort newest first, drop seen paths, take the first five, tag each
episode with the track seed. -/
def fetchEpisodesForTrack (artist title : String) (seenEpisodes : List String)
    (results : List SearchResult) : List Episode :=
  let sorted := sortByDateDesc results
  let unseen := sorted.filter (fun r => !seenEpisodes.contains r.path)
  (unseen.take 5).map (fun r => ⟨r.path, r.title, r.local_date, Source.track artist title⟩)

/-- fetchEpisodesForGenre (route.js lines 120-142) applied to the search
response: drop seen paths, take the first five, tag each episode with the
genre seed.  The source performs no sort here. -/
def fetchEpisodesForGenre (genreId : String) (seenEpisodes : List String)
    (results : List SearchResult) : List Episode :=
  let unseen := results.filter (fun r => !seenEpisodes.contains r.path)
  (unseen.take 5).map (fun r => ⟨r.path, r.title, r.local_date, Source.genre genreId⟩)

/-- A raw tracklist row from the NTS tracklist endpoint. -/
structure RawTrack where
  uid : String
  artist : String
  title : String
deriving DecidableEq

/-- A tracklist row after fetchTracklist attaches the episode path. -/
structure TracklistTrack where
  uid : String
  artist : String
  title : String
  episodePath : String
deriving DecidableEq

/-- fetchTracklist (route.js lines 148-166): a failed response contributes
no tracks; a successful one is mapped to rows carrying the episode path. -/
def fetchTracklist (episodePath : String) (response : Option (List RawTrack)) :
    List TracklistTrack :=
  match response with
  | none => []
  | some ts => ts.map (fun t => ⟨t.uid, t.artist, t.title, episodePath⟩)

/-- A genre input of the request body, which the route accepts either as a
plain string or as an object with id and name. -/
inductive GenreInput where
  | str (s : String)
  | obj (id name : String)
deriving DecidableEq

/-- The id the route extracts from a genre input. -/
def GenreInput.genreId : GenreInput → String
  | .str s => s
  | .obj id _ => id

/-- The display name the route extracts from a genre input. -/
def GenreInput.genreName : GenreInput → String
  | .str s => s
  | .obj _ name => name

/-- The request body of the create-stack POST handler. -/
structure CreateStackRequest where
  tracks : List SourceTrack
  genres : List GenreInput
  seenEpisodes : List String
  referencedTracks : List String

/-- Outcome of one Spotify search request as the route can observe it:
the promise rejects, the response is not ok, no item matches, or a track
is found. -/
inductive SpotifyResponse where
  | rejected
  | failed
  | noMatch
  | found (d : SpotifyData)
deriving DecidableEq

/-- searchSpotifyTrack (route.js lines 47-77): a non-ok response or an empty
result list yields null; a rejected request escapes as an exception, which
nothing on the enrichment path catches. -/
def searchSpotifyTrack (resp : SpotifyResponse) : Except Unit (Option SpotifyData) :=
  match resp with
  | .rejected => .error ()
  | .failed => .ok none
  | .noMatch => .ok none
  | .found d => .ok (some d)

/-- Environment of the POST handler: the answers of every external call.
A none answer of an NTS oracle stands for a request that failed, which the
route catches and converts into an empty contribution. -/
structure Env where
  trackSearch : String → String → Option (List SearchResult)
  genreSearch : String → Option (List SearchResult)
  tracklist : String → Option (List RawTrack)
  spotifyTokenOk : Bool
  spotify : String → String → SpotifyResponse
  now : Nat
  nowISO : String

/-- Step 1 of POST: one episode list per seed, track seeds first then genre
seeds, a failed fetch contributing the empty list (route.js lines 192-219). -/
def episodeResults (req : CreateStackRequest) (env : Env) : List (List Episode) :=
  req.tracks.map (fun t =>
    match env.trackSearch t.artist t.title with
    | none => []
    | some rs => fetchEpisodesForTrack t.artist t.title req.seenEpisodes rs)
  ++ req.genres.map (fun g =>
    match env.genreSearch g.genreId with
    | none => []
    | some rs => fetchEpisodesForGenre g.genreId req.seenEpisodes rs)

/-- The flattened episode list of all seeds in seed order. -/
def allEpisodes (req : CreateStackRequest) (env : Env) : List Episode :=
  (episodeResults req env).flatten

/-- One set call of a JavaScript Map keyed by episode path: an existing key
keeps its position but receives the new value, a new key is appended. -/
def jsMapSet (m : List (String × Episode)) (k : String) (v : Episode) :
    List (String × Episode) :=
  if m.any (fun e => e.1 == k) then
    m.map (fun e => if e.1 == k then (k, v) else e)
  else
    m ++ [(k, v)]

/-- The Map built from the entry list, one set call per episode in order,
the model of new Map(allEpisodes.map(ep to [ep.path, ep])). -/
def jsMapOfEpisodes (eps : List Episode) : List (String × Episode) :=
  eps.foldl (fun m ep => jsMapSet m ep.path ep) []

/-- The values of that Map in insertion order, the model of the Map values
call of route.js lines 223-225. -/
def dedupEpisodesByPath (eps : List Episode) : List Episode :=
  (jsMapOfEpisodes eps).map (fun e => e.2)

/-- Step 1 output of POST: the episode list deduplicated by path. -/
def uniqueEpisodes (req : CreateStackRequest) (env : Env) : List Episode :=
  dedupEpisodesByPath (allEpisodes req env)

/-- A collected track of step 3: the tracklist row joined with its episode
metadata (route.js lines 254-268). -/
structure CollectedTrack where
  uid : String
  artist : String
  title : String
  episodePath : String
  episodeTitle : String
  airDate : Nat
  source : Source
deriving DecidableEq

/-- Steps 2 and 3 of POST: fetch every unique episode tracklist, keep the
rows whose uid is not already referenced and join them with the episode
metadata, in episode order then tracklist order. -/
def collectTracks (req : CreateStackRequest) (env : Env) : List CollectedTrack :=
  (uniqueEpisodes req env).flatMap (fun episode =>
    ((fetchTracklist episode.path (env.tracklist episode.path)).filter
        (fun track => !req.referencedTracks.contains track.uid)).map
      (fun track =>
        ⟨track.uid, track.artist, track.title, track.episodePath,
         episode.title, episode.airDate, episode.source⟩))

/-- Step 3.5 of POST: enrich every collected track with its Spotify answer.
A rejected request escapes the whole traversal, as it does through the
uncaught Promise.all of route.js lines 276-289. -/
def enrichTracks (spotify : String → String → SpotifyResponse) :
    List CollectedTrack → Except Unit (List EnrichedTrack)
  | [] => .ok []
  | track :: rest =>
    match searchSpotifyTrack (spotify track.artist track.title), enrichTracks spotify rest with
    | .ok d, .ok others =>
      .ok (⟨track.uid, track.artist, track.title, track.episodePath,
            track.episodeTitle, track.airDate, track.source, d⟩ :: others)
    | .error e, _ => .error e
    | .ok _, .error e => .error e

/-- The enrichment outcome of one response when no rejection occurs. -/
def specEnrichResult : SpotifyResponse → Option SpotifyData
  | .found d => some d
  | _ => none

/-- Error responses of the POST handler: the 400 of missing seeds, the 404
of no unseen episodes, and the 500 of the outer catch. -/
inductive CreateStackError where
  | invalidSeeds
  | noEpisodes
  | serverError
deriving DecidableEq

/-- The summary fragment built for a name list: first two names joined by a
comma, plus a remainder count (route.js lines 305-314). -/
def summaryPart (names : List String) : String :=
  String.intercalate ", " (names.take 2) ++
    (if 2 < names.length then " +" ++ toString (names.length - 2) ++ " more" else "")

/-- The human-readable summary line of route.js lines 305-319. -/
def buildSummary (req : CreateStackRequest) (genreNames : List String)
    (trackCount episodeCount : Nat) : String :=
  let artistNames := (req.tracks.map (fun t => t.artist)).filter (fun a => a != "")
  let parts :=
    (if 0 < req.tracks.length ∧ 0 < artistNames.length then [summaryPart artistNames] else [])
    ++ (if 0 < req.genres.length then [summaryPart genreNames] else [])
  let episodeText := if episodeCount = 1 then "episode" else "episodes"
  if 0 < parts.length then
    toString trackCount ++ " curated tracks from " ++ toString episodeCount ++
      " NTS " ++ episodeText ++ " featuring " ++ String.intercalate " and " parts
  else
    toString trackCount ++ " curated tracks from " ++ toString episodeCount ++
      " NTS " ++ episodeText

/-- The POST handler of the create-stack route (route.js lines 172-351):
validate the seeds, resolve and deduplicate episodes, collect unreferenced
tracks, enrich them, and assemble the stack.  A token failure or an escaped
enrichment rejection lands in the outer catch as a 500. -/
def POST (req : CreateStackRequest) (env : Env) : Except CreateStackError Stack :=
  if req.tracks.length = 0 ∧ req.genres.length = 0 then
    .error .invalidSeeds
  else
    let uniq := uniqueEpisodes req env
    if uniq.length = 0 then
      .error .noEpisodes
    else if !env.spotifyTokenOk then
      .error .serverError
    else
      match enrichTracks env.spotify (collectTracks req env) with
      | .error _ => .error .serverError
      | .ok tracksWithSpotify =>
        let genreNames := req.genres.map (fun g => g.genreName)
        let sources : StackSources :=
          ⟨req.tracks.map (fun t => ⟨t.artist, t.title⟩), genreNames⟩
        .ok
          { id := toString env.now
            createdAt := env.nowISO
            name := generateStackName sources
            sources := sources
            tracks := tracksWithSpotify
            episodesUsed := uniq
            summary := buildSummary req genreNames tracksWithSpotify.length uniq.length }

/-! Concrete values used by witnesses and counterexamples. -/

/-- A stored stack with the given id and no tracks. -/
def stk (n : String) : Stack := ⟨n, "", "", ⟨[], []⟩, [], [], ""⟩

/-- An enriched track with uid a, shared by two stored stacks below. -/
def trkA : EnrichedTrack := ⟨"a", "X", "Y", "/e", "E", 0, Source.track "X" "Y", none⟩

/-- A stored stack with the given id containing the one track trkA. -/
def stackWithA (n : String) : Stack := ⟨n, "", "", ⟨[], []⟩, [trkA], [], ""⟩

/-- A state whose referencedTracks list does not mention uid a although two
stored stacks contain it: reachable only through prior corruption, but the
claim quantifies over every exposure state. -/
def exCorrupt : ExposureState := ⟨[], [], [stackWithA "1", stackWithA "2"]⟩

/-- A state that holds no stack with id 9. -/
def exNoop : ExposureState := ⟨[], ["r"], [stk "1"]⟩

/-- The new referencedTracks value exactly as claim C1 states it:
(referencedTracks minus deletedKeys) union (deletedKeys intersect
remainingKeys), written with list filters. -/
def claimReferencedAfterDelete (st : ExposureState) (stackId : String) : List String :=
  (st.referencedTracks.filter (fun uid => !(deletedKeys st stackId).contains uid))
  ++ ((deletedKeys st stackId).filter (fun uid => (remainingKeys st stackId).contains uid))

/-! Theorems. -/

/-- C1 counterexample: in a state where uid a occurs in the deleted stack
and in a remaining stack but not in referencedTracks, the formula of the
claim contains a, yet deleteStack leaves it out, because the source only
filters the existing referencedTracks list and never adds keys. -/
theorem deleteStack_claim_counterexample :
    "a" ∈ claimReferencedAfterDelete exCorrupt "1"
  ∧ "a" ∉ (deleteStack "1" exCorrupt).referencedTracks := by
  decide

/-- C1 amended: deleteStack is a no-op when no stack has the id; otherwise
it removes the target stack and keeps a referenced uid iff it was already
referenced and is either outside the deleted keys or inside the remaining
keys.  Equivalently the new set is the old one intersected with the formula
of the claim. -/
theorem deleteStack_spec (stackId : String) (st : ExposureState) :
    ((∀ s ∈ st.stackHistory, s.id ≠ stackId) → deleteStack stackId st = st)
  ∧ (deleteStack stackId st).stackHistory = st.stackHistory.filter (fun s => s.id != stackId)
  ∧ (deleteStack stackId st).seenEpisodes = st.seenEpisodes
  ∧ ∀ uid, uid ∈ (deleteStack stackId st).referencedTracks ↔
      uid ∈ st.referencedTracks ∧
        (uid ∉ deletedKeys st stackId ∨ uid ∈ remainingKeys st stackId) := by
  have hfilter : ∀ (h : List Stack), (∀ s ∈ h, s.id ≠ stackId) →
      h.filter (fun s => s.id != stackId) = h := by
    intro h hall
    apply List.filter_eq_self.mpr
    intro s hs
    simpa using hall s hs
  refine ⟨?_, ?_, ?_, ?_⟩
  · intro hall
    have hnone : st.stackHistory.find? (fun s => s.id == stackId) = none := by
      apply List.find?_eq_none.mpr
      intro s hs
      simpa using hall s hs
    simp [deleteStack, hnone, hfilter st.stackHistory hall]
  · cases h : st.stackHistory.find? (fun s => s.id == stackId) <;>
      simp [deleteStack, h]
  · cases h : st.stackHistory.find? (fun s => s.id == stackId) <;>
      simp [deleteStack, h]
  · intro uid
    cases h : st.stackHistory.find? (fun s => s.id == stackId) with
    | none =>
      simp [deleteStack, h, deletedKeys]
    | some s =>
      simp only [deleteStack, h, deletedKeys, remainingKeys, List.mem_filter]
      constructor
      · rintro ⟨hmem, hcond⟩
        refine ⟨hmem, ?_⟩
        simpa using hcond
      · rintro ⟨hmem, hcond⟩
        refine ⟨hmem, ?_⟩
        simpa using hcond

/-- C1 witness: deleting an id that no stored stack carries leaves the
concrete state untouched. -/
theorem deleteStack_spec_witness : deleteStack "9" exNoop = exNoop :=
  (deleteStack_spec "9" exNoop).1 (by decide)

/-- C7: the name generation of the source agrees with the case analysis of
the specification on artist names of track seeds with a non-empty artist
plus the genre names. -/
theorem generateStackName_eq_spec (sources : StackSources) :
    generateStackName sources =
      specStackName
        ((sources.tracks.filter (fun t => t.artist != "")).map (fun t => t.artist))
        sources.genres := by
  rcases sources with ⟨tracks, genres⟩
  simp only [generateStackName]
  generalize (tracks.filter (fun t => t.artist != "")).map (fun t => t.artist) = A
  generalize genres = G
  rcases A with _ | ⟨a, _ | ⟨b, _ | ⟨c, as⟩⟩⟩ <;>
    rcases G with _ | ⟨g, _ | ⟨h, _ | ⟨k, gs⟩⟩⟩ <;>
      simp [specStackName, List.getD]

/-- C8: saving a stack puts it at the front; the stored history never
exceeds 50 entries; below the bound nothing is dropped, and at the bound
exactly the oldest stack is dropped. -/
theorem saveStackToHistory_spec (stack : Stack) (history : List Stack) :
    (saveStackToHistory stack history).head? = some stack
  ∧ (saveStackToHistory stack history).length ≤ 50
  ∧ (history.length < 50 → saveStackToHistory stack history = stack :: history)
  ∧ (history.length = 50 → saveStackToHistory stack history = stack :: history.dropLast) := by
  have hcons : saveStackToHistory stack history = stack :: history.take 49 := rfl
  refine ⟨by simp [hcons], ?_, fun h => ?_, fun h => ?_⟩
  · simp only [saveStackToHistory, List.length_take]
    omega
  · simp only [saveStackToHistory]
    apply List.take_of_length_le
    simp only [List.length_cons]
    omega
  · rw [hcons, List.dropLast_eq_take, h]

/-- C8 witness: saving onto a full history of 50 stacks keeps the bound by
dropping the last stored stack. -/
theorem saveStackToHistory_spec_witness :
    saveStackToHistory (stk "y") (List.replicate 50 (stk "x")) =
      stk "y" :: (List.replicate 50 (stk "x")).dropLast :=
  (saveStackToHistory_spec (stk "y") (List.replicate 50 (stk "x"))).2.2.2 (by simp)

/-- C10: marking a path that is already stored leaves the stored list
unchanged, marking twice equals marking once, and the operation preserves
freedom from duplicates. -/
theorem markEpisodeAsSeen_spec (p : String) (seen : List String) :
    (p ∈ seen → markEpisodeAsSeen p seen = seen)
  ∧ markEpisodeAsSeen p (markEpisodeAsSeen p seen) = markEpisodeAsSeen p seen
  ∧ (seen.Nodup → (markEpisodeAsSeen p seen).Nodup) := by
  refine ⟨fun hmem => ?_, ?_, fun hnd => ?_⟩
  · simp [markEpisodeAsSeen, hmem]
  · by_cases hmem : p ∈ seen
    · simp [markEpisodeAsSeen, hmem]
    · simp [markEpisodeAsSeen, hmem]
  · by_cases hmem : p ∈ seen
    · simpa [markEpisodeAsSeen, hmem] using hnd
    · simp [markEpisodeAsSeen, hmem, List.nodup_append, hnd]

/-- C10 witness: marking the path a on the stored list containing only a
returns the same list. -/
theorem markEpisodeAsSeen_spec_witness : markEpisodeAsSeen "a" ["a"] = ["a"] :=
  (markEpisodeAsSeen_spec "a" ["a"]).1 (by decide)

/-- Membership in an insertion step of the date sort. -/
lemma mem_insertByDateDesc {x z : SearchResult} {l : List SearchResult} :
    z ∈ insertByDateDesc x l ↔ z = x ∨ z ∈ l := by
  induction l with
  | nil => simp [insertByDateDesc]
  | cons y ys ih =>
    simp only [insertByDateDesc]
    split
    · simp [List.mem_cons]
    · simp only [List.mem_cons, ih]
      tauto

/-- Inserting into a date-descending list keeps it date-descending. -/
lemma pairwise_insertByDateDesc (x : SearchResult) (l : List SearchResult)
    (hl : l.Pairwise (fun a b => b.local_date ≤ a.local_date)) :
    (insertByDateDesc x l).Pairwise (fun a b => b.local_date ≤ a.local_date) := by
  induction l with
  | nil => simp [insertByDateDesc]
  | cons y ys ih =>
    rcases List.pairwise_cons.mp hl with ⟨hy, hys⟩
    simp only [insertByDateDesc]
    split
    · rename_i hle
      refine List.pairwise_cons.mpr ⟨?_, hl⟩
      intro z hz
      rcases List.mem_cons.mp hz with rfl | hz2
      · exact hle
      · exact le_trans (hy z hz2) hle
    · rename_i hgt
      refine List.pairwise_cons.mpr ⟨?_, ih hys⟩
      intro z hz
      rcases mem_insertByDateDesc.mp hz with rfl | hz2
      · omega
      · exact hy z hz2

/-- The sort used by fetchEpisodesForTrack yields a date-descending list. -/
lemma pairwise_sortByDateDesc (l : List SearchResult) :
    (sortByDateDesc l).Pairwise (fun a b => b.local_date ≤ a.local_date) := by
  induction l with
  | nil => simp [sortByDateDesc]
  | cons x xs ih => exact pairwise_insertByDateDesc x _ ih

/-- C4 counterexample: given two unseen results in ascending date order, the
genre fetch keeps the natural order of the source response, so its output is
not sorted by date descending — the source sorts only in the track fetch. -/
theorem fetchEpisodesForGenre_unsorted_counterexample :
    (fetchEpisodesForGenre "g" [] [⟨"p1", "t1", 1⟩, ⟨"p2", "t2", 5⟩]).map
        (fun e => e.airDate) = [1, 5]
  ∧ ¬ (fetchEpisodesForGenre "g" [] [⟨"p1", "t1", 1⟩, ⟨"p2", "t2", 5⟩]).Pairwise
        (fun e f => f.airDate ≤ e.airDate) := by
  constructor
  · rfl
  · decide

/-- C4 amended: the track fetch sorts by date descending, filters seen paths
and truncates to five; the genre fetch only filters and truncates, keeping
the natural response order (its path list is a sublist of the response in
order).  Both outputs are capped at five and free of seen paths. -/
theorem fetchEpisodes_per_seed_spec (artist title genreId : String)
    (seen : List String) (rs : List SearchResult) :
    (fetchEpisodesForTrack artist title seen rs).Pairwise
        (fun e f => f.airDate ≤ e.airDate)
  ∧ (fetchEpisodesForTrack artist title seen rs).length ≤ 5
  ∧ (∀ e ∈ fetchEpisodesForTrack artist title seen rs, e.path ∉ seen)
  ∧ ((fetchEpisodesForGenre genreId seen rs).map (fun e => e.path)).Sublist
        (rs.map (fun r => r.path))
  ∧ (fetchEpisodesForGenre genreId seen rs).length ≤ 5
  ∧ (∀ e ∈ fetchEpisodesForGenre genreId seen rs, e.path ∉ seen) := by
  refine ⟨?_, ?_, ?_, ?_, ?_, ?_⟩
  · rw [fetchEpisodesForTrack, List.pairwise_map]
    have hsorted := pairwise_sortByDateDesc rs
    have hsub : ((sortByDateDesc rs).filter (fun r => !seen.contains r.path)).take 5
        |>.Sublist (sortByDateDesc rs) :=
      (List.take_sublist _ _).trans (List.filter_sublist _)
    exact hsorted.sublist hsub
  · simp only [fetchEpisodesForTrack, List.length_map, List.length_take]
    omega
  · intro e he
    simp only [fetchEpisodesForTrack, List.mem_map] at he
    rcases he with ⟨r, hr, rfl⟩
    have hr2 := List.mem_of_mem_take hr
    have := List.of_mem_filter hr2
    simpa using this
  · rw [fetchEpisodesForGenre, List.map_map]
    have hsub : ((rs.filter (fun r => !seen.contains r.path)).take 5).Sublist rs :=
      (List.take_sublist _ _).trans (List.filter_sublist _)
    simpa using hsub.map (fun r => r.path)
  · simp only [fetchEpisodesForGenre, List.length_map, List.length_take]
    omega
  · intro e he
    simp only [fetchEpisodesForGenre, List.mem_map] at he
    rcases he with ⟨r, hr, rfl⟩
    have hr2 := List.mem_of_mem_take hr
    have := List.of_mem_filter hr2
    simpa using this

/-- C4 witness: with one seen path, the concrete track fetch keeps the newer
unseen result, whose path is indeed not among the seen ones. -/
theorem fetchEpisodes_per_seed_spec_witness :
    (⟨"p2", "t2", 5, Source.track "A" "T"⟩ : Episode).path ∉ (["x"] : List String) :=
  (fetchEpisodes_per_seed_spec "A" "T" "g" ["x"]
      [⟨"p1", "t1", 1⟩, ⟨"p2", "t2", 5⟩]).2.2.1 _ (by decide)

/-- A Spotify response that is not a rejection produces the optional data of
specEnrichResult. -/
lemma searchSpotifyTrack_ok_of_ne {resp : SpotifyResponse}
    (h : resp ≠ SpotifyResponse.rejected) :
    searchSpotifyTrack resp = .ok (specEnrichResult resp) := by
  cases resp <;> simp_all [searchSpotifyTrack, specEnrichResult]

/-- A successful Spotify search carries exactly specEnrichResult. -/
lemma searchSpotifyTrack_ok_eq {resp : SpotifyResponse} {d : Option SpotifyData}
    (h : searchSpotifyTrack resp = .ok d) : d = specEnrichResult resp := by
  cases resp <;> simp_all [searchSpotifyTrack, specEnrichResult]

/-- Without any rejected request, enrichment succeeds and maps each track to
itself plus its Spotify answer, preserving length and order. -/
lemma enrichTracks_no_reject (spotify : String → String → SpotifyResponse)
    (tracks : List CollectedTrack)
    (hall : ∀ t ∈ tracks, spotify t.artist t.title ≠ SpotifyResponse.rejected) :
    enrichTracks spotify tracks =
      .ok (tracks.map (fun t =>
        ⟨t.uid, t.artist, t.title, t.episodePath, t.episodeTitle, t.airDate, t.source,
         specEnrichResult (spotify t.artist t.title)⟩)) := by
  induction tracks with
  | nil => rfl
  | cons track rest ih =>
    have hhead := searchSpotifyTrack_ok_of_ne (hall track (by simp))
    have hrest := ih (fun t ht => hall t (by simp [ht]))
    simp [enrichTracks, hhead, hrest]

/-- One rejected request among the tracks makes the whole enrichment fail. -/
lemma enrichTracks_reject (spotify : String → String → SpotifyResponse)
    (tracks : List CollectedTrack)
    (hex : ∃ t ∈ tracks, spotify t.artist t.title = SpotifyResponse.rejected) :
    enrichTracks spotify tracks = .error () := by
  induction tracks with
  | nil => simp at hex
  | cons track rest ih =>
    rcases hex with ⟨t, ht, hrej⟩
    rcases List.mem_cons.mp ht with rfl | htail
    · simp [enrichTracks, hrej, searchSpotifyTrack]
    · have hrest := ih ⟨t, htail, hrej⟩
      cases hhead : searchSpotifyTrack (spotify track.artist track.title) with
      | error e => cases e; simp [enrichTracks, hhead]
      | ok d => simp [enrichTracks, hhead, hrest]

/-- A successful enrichment equals the pointwise map of the input tracks. -/
lemma enrichTracks_ok_eq (spotify : String → String → SpotifyResponse)
    (tracks : List CollectedTrack) (out : List EnrichedTrack)
    (hok : enrichTracks spotify tracks = .ok out) :
    out = tracks.map (fun t =>
      ⟨t.uid, t.artist, t.title, t.episodePath, t.episodeTitle, t.airDate, t.source,
       specEnrichResult (spotify t.artist t.title)⟩) := by
  induction tracks generalizing out with
  | nil =>
    simp only [enrichTracks] at hok
    cases hok
    rfl
  | cons track rest ih =>
    cases hhead : searchSpotifyTrack (spotify track.artist track.title) with
    | error e => simp [enrichTracks, hhead] at hok
    | ok d =>
      cases hrest : enrichTracks spotify rest with
      | error e => simp [enrichTracks, hhead, hrest] at hok
      | ok others =>
        simp only [enrichTracks, hhead, hrest] at hok
        cases hok
        simp [ih others hrest, searchSpotifyTrack_ok_eq hhead]

/-- C6 amended: the enrichment step keeps length and order, populating the
spotify field with the search answer and leaving it empty on no-match or
non-ok response, both non-fatal; but a rejected request (a network-level
enricher failure) fails the whole enrichment instead of the single track. -/
theorem enrichTracks_spec (spotify : String → String → SpotifyResponse)
    (tracks : List CollectedTrack) :
    ((∀ t ∈ tracks, spotify t.artist t.title ≠ SpotifyResponse.rejected) →
      enrichTracks spotify tracks =
        .ok (tracks.map (fun t =>
          ⟨t.uid, t.artist, t.title, t.episodePath, t.episodeTitle, t.airDate, t.source,
           specEnrichResult (spotify t.artist t.title)⟩)))
  ∧ ((∃ t ∈ tracks, spotify t.artist t.title = SpotifyResponse.rejected) →
      enrichTracks spotify tracks = .error ()) :=
  ⟨enrichTracks_no_reject spotify tracks, enrichTracks_reject spotify tracks⟩

/-- C6 witness: enriching one concrete track whose search finds no match
succeeds with the spotify field left empty. -/
theorem enrichTracks_spec_witness :
    enrichTracks (fun _ _ => SpotifyResponse.noMatch)
        [⟨"u", "X", "Y", "/p", "E", 1, Source.genre "g"⟩] =
      .ok [⟨"u", "X", "Y", "/p", "E", 1, Source.genre "g", none⟩] := by
  have h := (enrichTracks_spec (fun _ _ => SpotifyResponse.noMatch)
      [⟨"u", "X", "Y", "/p", "E", 1, Source.genre "g"⟩]).1 (by intro t _; simp)
  simpa [specEnrichResult] using h

/-- C9: on the successful path, enrichment changes no pre-existing field of
any track: at every position the uid, artist, title, episodePath,
episodeTitle, airDate and source fields are those of the input track, and
only the spotify field is added. -/
theorem enrichTracks_frame (spotify : String → String → SpotifyResponse)
    (tracks : List CollectedTrack) (out : List EnrichedTrack)
    (hok : enrichTracks spotify tracks = .ok out) :
    out.length = tracks.length
  ∧ ∀ i : Nat,
      (out[i]?).map (fun e =>
          (e.uid, e.artist, e.title, e.episodePath, e.episodeTitle, e.airDate, e.source)) =
        (tracks[i]?).map (fun t =>
          (t.uid, t.artist, t.title, t.episodePath, t.episodeTitle, t.airDate, t.source))
  ∧ (out[i]?).map (fun e => e.spotify) =
        (tracks[i]?).map (fun t => specEnrichResult (spotify t.artist t.title)) := by
  have heq := enrichTracks_ok_eq spotify tracks out hok
  subst heq
  refine ⟨by simp, fun i => ⟨?_, ?_⟩⟩ <;>
    · rw [List.getElem?_map, Option.map_map]
      cases tracks[i]? <;> simp

/-- C9 witness: a concrete one-track enrichment preserves the track count. -/
theorem enrichTracks_frame_witness :
    ([⟨"u", "X", "Y", "/p", "E", 1, Source.genre "g", none⟩] : List EnrichedTrack).length =
      ([⟨"u", "X", "Y", "/p", "E", 1, Source.genre "g"⟩] : List CollectedTrack).length :=
  (enrichTracks_frame (fun _ _ => SpotifyResponse.noMatch)
      [⟨"u", "X", "Y", "/p", "E", 1, Source.genre "g"⟩]
      [⟨"u", "X", "Y", "/p", "E", 1, Source.genre "g", none⟩] rfl).1

/-- A request with a single track seed and no prior exposure. -/
def req1 : CreateStackRequest := ⟨[⟨"A", "T"⟩], [], [], []⟩

/-- An environment where the one found episode has an empty tracklist. -/
def envEmptyTracklist : Env :=
  { trackSearch := fun _ _ => some [⟨"p", "t", 5⟩]
    genreSearch := fun _ => none
    tracklist := fun _ => some []
    spotifyTokenOk := true
    spotify := fun _ _ => SpotifyResponse.noMatch
    now := 0
    nowISO := "" }

/-- An environment where every Spotify search request rejects. -/
def envRejecting : Env :=
  { trackSearch := fun _ _ => some [⟨"p", "t", 5⟩]
    genreSearch := fun _ => none
    tracklist := fun _ => some [⟨"u1", "X", "Y"⟩]
    spotifyTokenOk := true
    spotify := fun _ _ => SpotifyResponse.rejected
    now := 0
    nowISO := "" }

/-- C3 counterexample: with one unseen episode whose tracklist is empty,
zero tracks survive, yet the build succeeds with an empty stack instead of
returning the NoNewContent error the claim requires. -/
theorem POST_zero_tracks_success_counterexample :
    (POST req1 envEmptyTracklist).toOption.map (fun s => s.tracks) = some []
  ∧ uniqueEpisodes req1 envEmptyTracklist ≠ [] := by
  constructor
  · rfl
  · decide

/-- C3 amended: the build errors iff no seeds were supplied (InvalidSeeds),
or every seed contributed zero unseen episodes (404), or the enrichment
stage fails globally — a failed token fetch or a rejected per-track Spotify
request (500).  Zero surviving tracks is not an error: the build then
returns a stack with an empty track list. -/
theorem POST_error_iff (req : CreateStackRequest) (env : Env) :
    (POST req env = .error .invalidSeeds ↔ req.tracks = [] ∧ req.genres = [])
  ∧ (POST req env = .error .noEpisodes ↔
      ¬(req.tracks = [] ∧ req.genres = []) ∧ uniqueEpisodes req env = [])
  ∧ (POST req env = .error .serverError ↔
      ¬(req.tracks = [] ∧ req.genres = []) ∧ uniqueEpisodes req env ≠ [] ∧
        (env.spotifyTokenOk = false ∨
          enrichTracks env.spotify (collectTracks req env) = .error ()))
  ∧ ((∃ s, POST req env = .ok s) ↔
      ¬(req.tracks = [] ∧ req.genres = []) ∧ uniqueEpisodes req env ≠ [] ∧
        env.spotifyTokenOk = true ∧
        ∃ ts, enrichTracks env.spotify (collectTracks req env) = .ok ts) := by
  have hseeds : (req.tracks.length = 0 ∧ req.genres.length = 0) ↔
      (req.tracks = [] ∧ req.genres = []) := by
    simp [List.length_eq_zero]
  by_cases h1 : req.tracks = [] ∧ req.genres = []
  · have h1l : req.tracks.length = 0 ∧ req.genres.length = 0 := hseeds.mpr h1
    simp [POST, h1l, h1]
  · have h1l : ¬(req.tracks.length = 0 ∧ req.genres.length = 0) :=
      fun h => h1 (hseeds.mp h)
    by_cases h2 : uniqueEpisodes req env = []
    · have h2l : (uniqueEpisodes req env).length = 0 := by simp [h2]
      simp [POST, h1l, h1, h2, h2l]
    · have h2l : ¬(uniqueEpisodes req env).length = 0 := by
        simpa [List.length_eq_zero] using h2
      by_cases h3 : env.spotifyTokenOk = true
      · cases henr : enrichTracks env.spotify (collectTracks req env) with
        | error e =>
          cases e
          simp [POST, h1l, h1, h2, h2l, h3, henr]
        | ok ts =>
          simp [POST, h1l, h1, h2, h2l, h3, henr]
      · rw [Bool.not_eq_true] at h3
        simp [POST, h1l, h1, h2, h2l, h3]

/-- C6 counterexample: everything succeeds except that the single Spotify
search request of the one collected track rejects, and the whole build
fails with the 500 of the outer catch — refuting that a single enrichment
failure can never fail the build. -/
theorem enrich_rejection_fails_build_counterexample :
    POST req1 envRejecting = .error .serverError
  ∧ collectTracks req1 envRejecting ≠ [] := by
  constructor
  · rfl
  · decide

/-- Counting inside a filtered list equals counting the conjunction. -/
lemma countP_filter_and {α : Type} (p q : α → Bool) (l : List α) :
    (l.filter q).countP p = l.countP (fun a => q a && p a) := by
  induction l with
  | nil => rfl
  | cons a l ih =>
    by_cases hq : q a = true <;> by_cases hp : p a = true <;>
      simp [List.filter_cons, List.countP_cons, hq, hp, ih]

/-- An environment where one seed surfaces two episodes whose tracklists
hold the same artist and title under different uids. -/
def envC2 : Env :=
  { trackSearch := fun _ _ => some [⟨"p1", "t1", 5⟩, ⟨"p2", "t2", 3⟩]
    genreSearch := fun _ => none
    tracklist := fun p => if p == "p1" then some [⟨"u1", "X", "Y"⟩] else some [⟨"u2", "X", "Y"⟩]
    spotifyTokenOk := true
    spotify := fun _ _ => SpotifyResponse.noMatch
    now := 0
    nowISO := "" }

/-- C2 counterexample: two containers carrying a track with the very same
artist and title — hence the same TrackKey under any normalization — both
survive collection, so the claimed one-entry-per-TrackKey deduplication does
not happen in the source. -/
theorem collectTracks_dedup_counterexample :
    (collectTracks req1 envC2).countP
      (fun c => c.artist == "X" && c.title == "Y") = 2 := by
  rfl

/-- C2 amended: the collected list keeps every fetched track whose uid is
not referenced, in container order then in-container order, with no
cross-container TrackKey deduplication: for every predicate on the artist
and title — in particular for membership in any TrackKey class — the number
of surviving entries equals the sum over unique episodes of the matching
unreferenced tracklist rows. -/
theorem collectTracks_spec (req : CreateStackRequest) (env : Env) :
    (∀ c ∈ collectTracks req env, c.uid ∉ req.referencedTracks)
  ∧ ∀ p : String → String → Bool,
      (collectTracks req env).countP (fun c => p c.artist c.title) =
        ((uniqueEpisodes req env).map (fun ep =>
          (fetchTracklist ep.path (env.tracklist ep.path)).countP
            (fun r => !req.referencedTracks.contains r.uid && p r.artist r.title))).sum := by
  constructor
  · intro c hc
    simp only [collectTracks, List.mem_flatMap, List.mem_map, List.mem_filter] at hc
    rcases hc with ⟨ep, _, r, ⟨_, href⟩, rfl⟩
    simpa using href
  · intro p
    rw [collectTracks, List.countP_flatMap]
    congr 1
    apply List.map_congr_left
    intro ep _
    simp only [Function.comp]
    rw [List.countP_map, countP_filter_and]
    rfl

/-- C2 witness: the first concretely collected track has an unreferenced
uid. -/
theorem collectTracks_spec_witness :
    (⟨"u1", "X", "Y", "p1", "t1", 5, Source.track "A" "T"⟩ : CollectedTrack).uid ∉
      req1.referencedTracks :=
  (collectTracks_spec req1 envC2).1 _ (by decide)

/-- The paths of a list in first-occurrence order, carrying the set of keys
already seen: the insertion order of a JavaScript Map. -/
def firstSeenNew : List String → List String → List String
  | [], _ => []
  | p :: ps, seenKeys =>
    if p ∈ seenKeys then firstSeenNew ps seenKeys
    else p :: firstSeenNew ps (seenKeys ++ [p])

/-- The last episode of the list with the given path, if any: the value a
JavaScript Map holds after all set calls for that key. -/
def lastWithPath (p : String) : List Episode → Option Episode
  | [] => none
  | e :: es =>
    match lastWithPath p es with
    | some r => some r
    | none => if e.path = p then some e else none

/-- Every entry of a Map update keeps key equal to the path of its value. -/
lemma keyed_jsMapSet {m : List (String × Episode)} {k : String} {v : Episode}
    (hm : ∀ e ∈ m, e.1 = e.2.path) (hkv : k = v.path) :
    ∀ e ∈ jsMapSet m k v, e.1 = e.2.path := by
  intro e he
  unfold jsMapSet at he
  split at he
  · rcases List.mem_map.mp he with ⟨e0, he0, heq⟩
    by_cases h : (e0.1 == k) = true
    · rw [← heq, if_pos h]
      exact hkv
    · rw [← heq, if_neg h]
      exact hm e0 he0
  · rcases List.mem_append.mp he with h | h
    · exact hm e h
    · simp only [List.mem_singleton] at h
      subst h
      exact hkv

/-- Every entry of the Map built by the fold keeps key equal to the path of
its value. -/
lemma keyed_fold (eps : List Episode) :
    ∀ m : List (String × Episode), (∀ e ∈ m, e.1 = e.2.path) →
      ∀ e ∈ eps.foldl (fun m ep => jsMapSet m ep.path ep) m, e.1 = e.2.path := by
  induction eps with
  | nil =>
    intro m hm e he
    exact hm e (by simpa using he)
  | cons ep rest ih =>
    intro m hm
    simp only [List.foldl_cons]
    exact ih _ (keyed_jsMapSet hm rfl)

/-- A Map set call keeps the key list when the key exists and appends the
key otherwise. -/
lemma keys_jsMapSet (m : List (String × Episode)) (k : String) (v : Episode) :
    (jsMapSet m k v).map (fun e => e.1) =
      if k ∈ m.map (fun e => e.1) then m.map (fun e => e.1)
      else m.map (fun e => e.1) ++ [k] := by
  unfold jsMapSet
  by_cases hany : (m.any fun e => e.1 == k) = true
  · have hk : k ∈ m.map (fun e => e.1) := by
      rcases List.any_eq_true.mp hany with ⟨e, he, heq⟩
      exact List.mem_map.mpr ⟨e, he, by simpa using heq⟩
    simp only [hany, if_true, hk, List.map_map]
    apply List.map_congr_left
    intro e he
    simp only [Function.comp]
    by_cases h : (e.1 == k) = true
    · rw [if_pos h]
      exact ((by simpa using h : e.1 = k)).symm
    · rw [if_neg h]
  · have hk : k ∉ m.map (fun e => e.1) := by
      intro hmem
      rcases List.mem_map.mp hmem with ⟨e, he, heq⟩
      exact absurd (List.any_eq_true.mpr ⟨e, he, by simp [heq]⟩) hany
    simp [hany, hk]

/-- The key list of the Map fold: the starting keys followed by the fresh
paths in first-occurrence order. -/
lemma keys_fold (eps : List Episode) :
    ∀ m : List (String × Episode),
      (eps.foldl (fun m ep => jsMapSet m ep.path ep) m).map (fun e => e.1) =
        m.map (fun e => e.1) ++
          firstSeenNew (eps.map (fun e => e.path)) (m.map (fun e => e.1)) := by
  induction eps with
  | nil =>
    intro m
    simp [firstSeenNew]
  | cons ep rest ih =>
    intro m
    simp only [List.foldl_cons, List.map_cons, firstSeenNew]
    rw [ih, keys_jsMapSet]
    by_cases hk : ep.path ∈ m.map (fun e => e.1) <;>
      simp [hk, List.append_assoc]

/-- An entry of a Map set call is the inserted pair or an untouched entry
with another key. -/
lemma mem_jsMapSet {m : List (String × Episode)} {k : String} {v : Episode}
    {e : String × Episode} (he : e ∈ jsMapSet m k v) :
    e = (k, v) ∨ (e ∈ m ∧ e.1 ≠ k) := by
  unfold jsMapSet at he
  split at he
  · rcases List.mem_map.mp he with ⟨e0, he0, heq⟩
    by_cases h : (e0.1 == k) = true
    · left
      rw [← heq, if_pos h]
    · right
      rw [← heq, if_neg h]
      exact ⟨he0, by simpa using h⟩
  · rename_i hany
    rcases List.mem_append.mp he with h | h
    · right
      refine ⟨h, fun hk => ?_⟩
      exact absurd (List.any_eq_true.mpr ⟨e, h, by simp [hk]⟩) hany
    · left
      simpa using h

/-- No episode with the path means no last occurrence. -/
lemma lastWithPath_eq_none {p : String} {es : List Episode}
    (h : ∀ e ∈ es, e.path ≠ p) : lastWithPath p es = none := by
  induction es with
  | nil => rfl
  | cons e rest ih =>
    have hrest := ih (fun x hx => h x (List.mem_cons_of_mem _ hx))
    simp [lastWithPath, hrest, h e (by simp)]

/-- Every entry of the Map fold holds, for its key, the value of the last
set call — that is the last episode of the input carrying that path — or an
untouched entry of the start Map whose path never occurs. -/
lemma value_fold (eps : List Episode) :
    ∀ (m : List (String × Episode)) (e : String × Episode),
      e ∈ eps.foldl (fun m ep => jsMapSet m ep.path ep) m →
        lastWithPath e.1 eps = some e.2 ∨
          (lastWithPath e.1 eps = none ∧ e ∈ m) := by
  induction eps with
  | nil =>
    intro m e he
    right
    exact ⟨rfl, by simpa using he⟩
  | cons ep rest ih =>
    intro m e he
    simp only [List.foldl_cons] at he
    rcases ih _ _ he with h | ⟨hnone, hmem⟩
    · left
      simp [lastWithPath, h]
    · rcases mem_jsMapSet hmem with heq | ⟨hm, hne⟩
      · left
        subst heq
        simp [lastWithPath, hnone]
      · right
        refine ⟨?_, hm⟩
        simp [lastWithPath, hnone, Ne.symm hne]

/-- A request with one track seed and one genre seed. -/
def reqC5 : CreateStackRequest := ⟨[⟨"A", "T"⟩], [GenreInput.obj "g1" "House"], [], []⟩

/-- An environment where both seeds surface the episode with path p. -/
def envC5 : Env :=
  { trackSearch := fun _ _ => some [⟨"p", "t", 5⟩]
    genreSearch := fun _ => some [⟨"p", "t", 5⟩]
    tracklist := fun _ => some []
    spotifyTokenOk := true
    spotify := fun _ _ => SpotifyResponse.noMatch
    now := 0
    nowISO := "" }

/-- C5 counterexample: a track seed and a genre seed surface an episode with
the same path; the flattened episode list carries the track-seed object
first, yet the kept container object carries the genre seed — the last
occurrence wins, not the first, because a Map set call overwrites the value
of an existing key. -/
theorem uniqueEpisodes_last_value_counterexample :
    (allEpisodes reqC5 envC5).map (fun e => e.source) =
      [Source.track "A" "T", Source.genre "g1"]
  ∧ (uniqueEpisodes reqC5 envC5).map (fun e => e.source) = [Source.genre "g1"] :=
  ⟨rfl, rfl⟩

/-- C5 amended: container deduplication by id keeps first-occurrence order —
the path list of the output is the first-occurrence deduplication of the
input paths — but each kept container object is the one contributed by the
last seed in input order that yielded the path, not the first. -/
theorem uniqueEpisodes_spec (req : CreateStackRequest) (env : Env) :
    (uniqueEpisodes req env).map (fun e => e.path) =
      firstSeenNew ((allEpisodes req env).map (fun e => e.path)) []
  ∧ ∀ e ∈ uniqueEpisodes req env,
      lastWithPath e.path (allEpisodes req env) = some e := by
  have hkeyed := keyed_fold (allEpisodes req env) [] (by simp)
  constructor
  · have h1 : (uniqueEpisodes req env).map (fun e => e.path) =
        (jsMapOfEpisodes (allEpisodes req env)).map (fun e => e.1) := by
      unfold uniqueEpisodes dedupEpisodesByPath
      rw [List.map_map]
      apply List.map_congr_left
      intro pr hpr
      exact (hkeyed pr hpr).symm
    rw [h1]
    have h2 := keys_fold (allEpisodes req env) []
    simpa [jsMapOfEpisodes] using h2
  · intro e he
    unfold uniqueEpisodes dedupEpisodesByPath at he
    rcases List.mem_map.mp he with ⟨pr, hpr, rfl⟩
    have hk := hkeyed pr hpr
    have hv := value_fold (allEpisodes req env) [] pr hpr
    rcases hv with h | ⟨_, habs⟩
    · rw [← hk]
      exact h
    · simp at habs

/-- C5 witness: in the concrete duplicated-path run, the kept episode is
exactly the last occurrence of its path in the flattened input. -/
theorem uniqueEpisodes_spec_witness :
    lastWithPath "p" (allEpisodes reqC5 envC5) = some ⟨"p", "t", 5, Source.genre "g1"⟩ :=
  (uniqueEpisodes_spec reqC5 envC5).2 ⟨"p", "t", 5, Source.genre "g1"⟩ (by decide)
